import Mathlib

/-!
Shallow embedding of the relay pool subsystem
(`src/crates/nostr-sdk/src/relay/pool.rs`) of the `nostr` repository.

Event IDs, relay URLs, filters and statuses are abstracted as `Nat`;
the cryptographic checks and JSON decode steps performed by external
collaborators are abstracted as boolean outcomes carried on the wire
payload, exactly at the points where `handle_relay_message` consults them.
The `VecDeque<EventId>` seen-event cache is modelled as a `List EventId`
whose head is the front of the deque.
-/

namespace Nostr

/-- 32-byte event identifier, abstracted. -/
abbrev EventId := Nat

/-- Parsed relay URL, abstracted. -/
abbrev Url := Nat

/-- Subscription filter record, abstracted. -/
abbrev Filter := Nat

/-- Relay status value, abstracted. -/
abbrev RelayStatus := Nat

/-- A composed event: its wire ID, an abstract body, and the outcome of the
`is_expired` (NIP-40) check on the merged event. -/
structure Event where
  id : EventId
  body : Nat
  expired : Bool
  deriving DecidableEq, Repr

/-! ## Seen-Event Cache (`RelayPoolTask::add_event` / `add_events`)

The Rust loop `while events.len() >= self.max_seen_events { events.pop_front(); }`
is embedded twice: `popEvictFuel` is the faithful fueled form (on an empty
deque `pop_front` is a no-op, so at capacity `0` the loop never exits, which
the fueled form reports as `none`), and `popEvict` is the total structural
form, which agrees with the fueled form whenever the capacity is at least 1. -/

/-- Fueled head-eviction loop. One unit of fuel pays for one evaluation of the
loop guard `events.len() >= max_seen_events`; `none` means the fuel ran out
with the loop still spinning. `List.tail` models `pop_front` (a no-op on an
empty deque). -/
def popEvictFuel (maxSeen : Nat) : Nat → List EventId → Option (List EventId)
  | 0, _ => none
  | fuel + 1, es => if maxSeen ≤ es.length then popEvictFuel maxSeen fuel es.tail else some es

/-- Total head-eviction loop: pop the front while the length is at least
`maxSeen`. Total by structural recursion; it agrees with `popEvictFuel`
whenever `1 ≤ maxSeen`. -/
def popEvict (maxSeen : Nat) : List EventId → List EventId
  | [] => []
  | e :: es => if maxSeen ≤ (e :: es).length then popEvict maxSeen es else e :: es

/-- `RelayPoolTask::add_event`: return `false` and leave the cache unchanged if
the ID is present; otherwise evict from the head while at capacity, append at
the tail, and return `true`. -/
def addEvent (maxSeen : Nat) (es : List EventId) (eventId : EventId) : Bool × List EventId :=
  if es.contains eventId then (false, es)
  else (true, popEvict maxSeen es ++ [eventId])

/-- Fueled form of `addEvent`, inheriting the fueled eviction loop. -/
def addEventFuel (maxSeen fuel : Nat) (es : List EventId) (eventId : EventId) :
    Option (Bool × List EventId) :=
  if es.contains eventId then some (false, es)
  else match popEvictFuel maxSeen fuel es with
    | some es' => some (true, es' ++ [eventId])
    | none => none

/-- `RelayPoolTask::add_events`: if the batch is non-empty, run the `add_event`
body on each ID in order, discarding the verdicts. -/
def addEvents (maxSeen : Nat) (es : List EventId) (ids : List EventId) : List EventId :=
  if ids.isEmpty then es
  else ids.foldl
    (fun es eventId =>
      if es.contains eventId then es else popEvict maxSeen es ++ [eventId]) es

/-- Fueled form of `addEvents`: each admission gets `length + 1` fuel for its
eviction loop, enough for the loop to pop every element once and re-test. -/
def addEventsFuel (maxSeen : Nat) : List EventId → List EventId → Option (List EventId)
  | es, [] => some es
  | es, eventId :: ids =>
    if es.contains eventId then addEventsFuel maxSeen es ids
    else match popEvictFuel maxSeen (es.length + 1) es with
      | some es' => addEventsFuel maxSeen (es' ++ [eventId]) ids
      | none => none

/-- `RelayPoolTask::clear_already_seen_events`: empty the cache. -/
def clearAlreadySeenEvents (_es : List EventId) : List EventId := []

/-! ### Cache lemmas -/

/-- The total eviction loop drops exactly `length + 1 - maxSeen` head elements
(Nat subtraction: zero when below capacity). -/
lemma popEvict_eq_drop (maxSeen : Nat) (es : List EventId) :
    popEvict maxSeen es = es.drop (es.length + 1 - maxSeen) := by
  induction es with
  | nil => simp [popEvict]
  | cons e es ih =>
    by_cases h : maxSeen ≤ (e :: es).length
    · obtain ⟨k, hk, hk2⟩ : ∃ k, (e :: es).length + 1 - maxSeen = k + 1 ∧
          k = es.length + 1 - maxSeen := by
        refine ⟨es.length + 1 - maxSeen, ?_, rfl⟩
        simp only [List.length_cons] at h ⊢
        omega
      rw [popEvict, if_pos h, ih, hk, hk2, List.drop_succ_cons]
    · have h0 : (e :: es).length + 1 - maxSeen = 0 := by
        simp only [List.length_cons] at h ⊢
        omega
      rw [popEvict, if_neg h, h0, List.drop_zero]

/-- With capacity at least 1, fuel `length + 1` is enough for the eviction
loop, and the fueled loop computes the total one. -/
lemma popEvictFuel_eq (maxSeen : Nat) (h : 1 ≤ maxSeen) (es : List EventId) :
    popEvictFuel maxSeen (es.length + 1) es = some (popEvict maxSeen es) := by
  induction es with
  | nil =>
    have hne : ¬ maxSeen ≤ ([] : List EventId).length := by simp; omega
    rw [popEvictFuel, if_neg hne, popEvict]
  | cons e es ih =>
    by_cases hc : maxSeen ≤ (e :: es).length
    · rw [popEvictFuel, if_pos hc, popEvict, if_pos hc]
      simpa using ih
    · rw [popEvictFuel, if_neg hc, popEvict, if_neg hc]

/-- At capacity `0` the eviction loop on an empty cache makes no progress:
no amount of fuel completes it. -/
lemma popEvictFuel_zero_nil (fuel : Nat) : popEvictFuel 0 fuel ([] : List EventId) = none := by
  induction fuel with
  | zero => rfl
  | succ n ih => simpa [popEvictFuel] using ih

/-- With capacity at least 1, the fueled `add_event` with fuel `length + 1`
terminates and computes the total `addEvent`. -/
lemma addEventFuel_eq (maxSeen : Nat) (h : 1 ≤ maxSeen) (es : List EventId) (eventId : EventId) :
    addEventFuel maxSeen (es.length + 1) es eventId = some (addEvent maxSeen es eventId) := by
  unfold addEventFuel addEvent
  by_cases hc : eventId ∈ es
  · simp [hc]
  · simp [hc, popEvictFuel_eq maxSeen h es]

/-- With capacity at least 1, the fueled `add_events` terminates and computes
the total `addEvents` (stated via the underlying fold). -/
lemma addEventsFuel_eq (maxSeen : Nat) (h : 1 ≤ maxSeen) (ids : List EventId) :
    ∀ es : List EventId, addEventsFuel maxSeen es ids =
      some (ids.foldl
        (fun es eventId =>
          if es.contains eventId then es else popEvict maxSeen es ++ [eventId]) es) := by
  induction ids with
  | nil => intro es; rfl
  | cons i ids ih =>
    intro es
    by_cases hc : es.contains i
    · simp only [addEventsFuel, if_pos hc, List.foldl_cons, ih]
    · simp only [addEventsFuel, if_neg hc, popEvictFuel_eq maxSeen h es, List.foldl_cons, ih]

/-- `addEvents` is the fold of the `add_event` body (the `isEmpty` fast path
changes nothing on the empty batch). -/
lemma addEvents_eq_foldl (maxSeen : Nat) (es ids : List EventId) :
    addEvents maxSeen es ids =
      ids.foldl (fun s i => (addEvent maxSeen s i).2) es := by
  have hb : (fun s i => (addEvent maxSeen s i).2) =
      (fun (es : List EventId) (eventId : EventId) =>
        if es.contains eventId then es else popEvict maxSeen es ++ [eventId]) := by
    funext s i
    unfold addEvent
    by_cases hc : i ∈ s <;> simp [hc]
  unfold addEvents
  by_cases h : ids.isEmpty
  · rw [if_pos h]
    rw [List.isEmpty_iff] at h
    simp [h]
  · rw [if_neg h, hb]

/-- Inserting a fresh ID keeps the cache duplicate-free and, with capacity at
least 1, bounds its length by the capacity. -/
lemma insert_fresh_invariant (maxSeen : Nat) (h1 : 1 ≤ maxSeen) (es : List EventId)
    (eventId : EventId) (hnd : es.Nodup) (hmem : eventId ∉ es) :
    (popEvict maxSeen es ++ [eventId]).Nodup ∧
      (popEvict maxSeen es ++ [eventId]).length ≤ maxSeen := by
  rw [popEvict_eq_drop]
  constructor
  · have hsub : List.Sublist (es.drop (es.length + 1 - maxSeen)) es :=
      List.drop_sublist _ _
    have hnd' : (es.drop (es.length + 1 - maxSeen)).Nodup := hnd.sublist hsub
    have hmem' : eventId ∉ es.drop (es.length + 1 - maxSeen) := fun hmm =>
      hmem (hsub.mem hmm)
    simpa [List.nodup_append] using ⟨hnd', hmem'⟩
  · have hd : (es.drop (es.length + 1 - maxSeen)).length = es.length - (es.length + 1 - maxSeen) :=
      List.length_drop _ _
    rw [List.length_append, hd]
    simp only [List.length_cons, List.length_nil]
    omega

/-- Invariant preservation for `addEvent`: duplicate-freeness and the length
bound survive an admission test. -/
lemma addEvent_invariant (maxSeen : Nat) (h1 : 1 ≤ maxSeen) (es : List EventId)
    (eventId : EventId) (hnd : es.Nodup) (hlen : es.length ≤ maxSeen) :
    (addEvent maxSeen es eventId).2.Nodup ∧
      (addEvent maxSeen es eventId).2.length ≤ maxSeen := by
  unfold addEvent
  by_cases hc : eventId ∈ es
  · simpa [hc] using ⟨hnd, hlen⟩
  · simpa [hc] using insert_fresh_invariant maxSeen h1 es eventId hnd hc

/-- Invariant preservation for `addEvents`, by induction along the batch. -/
lemma addEvents_invariant (maxSeen : Nat) (h1 : 1 ≤ maxSeen) (ids : List EventId) :
    ∀ es : List EventId, es.Nodup → es.length ≤ maxSeen →
      (addEvents maxSeen es ids).Nodup ∧ (addEvents maxSeen es ids).length ≤ maxSeen := by
  induction ids with
  | nil => intro es hnd hlen; simpa [addEvents] using ⟨hnd, hlen⟩
  | cons i ids ih =>
    intro es hnd hlen
    have hstep := addEvent_invariant maxSeen h1 es i hnd hlen
    have := ih (addEvent maxSeen es i).2 hstep.1 hstep.2
    rw [addEvents_eq_foldl] at this ⊢
    simpa [List.foldl_cons] using this

/-! ## Inbound aggregator (`RelayPoolTask::handle_relay_message` / `run`)

The external collaborators consulted by `handle_relay_message` — the JSON
decodes of the two event projections, the BIP-340 signature check and the
SHA-256 ID re-derivation — are abstracted as boolean outcomes carried on the
raw wire payload, read in exactly the order the Rust code consults them. -/

/-- A structured relay message that is not an event delivery
(`NOTICE`, `EOSE`, `OK`, ...). -/
inductive OtherMsg where
  /-- A `NOTICE` frame carrying a human-readable message. -/
  | notice (message : Nat)
  /-- Any other non-event structured message. -/
  | misc (payload : Nat)
  deriving DecidableEq, Repr

/-- Structured relay message (`RelayMessage`). -/
inductive RelayMessage where
  /-- An event delivery under a subscription. -/
  | event (subscriptionId : Nat) (event : Event)
  /-- Any non-event structured message. -/
  | other (m : OtherMsg)
  deriving DecidableEq, Repr

/-- Raw event payload: the outcomes of the external decode/verify steps, in
the order `handle_relay_message` consults them, plus the composed event
(`partial_event.merge(missing)`). -/
structure RawEventPayload where
  /-- `PartialEvent::from_json` succeeds. -/
  partialOk : Bool
  /-- `partial_event.verify_signature()` succeeds (BIP-340 Schnorr). -/
  sigOk : Bool
  /-- `MissingPartialEvent::from_json` succeeds. -/
  missingOk : Bool
  /-- `event.verify_id()` succeeds (re-derived SHA-256 equals the wire ID). -/
  idOk : Bool
  /-- The composed event; its `expired` field is the `is_expired` outcome. -/
  event : Event
  deriving DecidableEq, Repr

/-- Raw wire message from a relay (`RawRelayMessage`). -/
inductive RawRelayMessage where
  /-- A raw `EVENT` frame. -/
  | event (subscriptionId : Nat) (payload : RawEventPayload)
  /-- A raw non-event frame; `none` means `RelayMessage::try_from` fails. -/
  | nonEvent (parsed : Option OtherMsg)
  deriving DecidableEq, Repr

/-- `RelayPool` error (`Error`). -/
inductive Error where
  /-- Partial-event decode error (`Error::PartialEvent`). -/
  | partialEventErr
  /-- Event error: bad signature or bad ID (`Error::Event`). -/
  | eventErr
  /-- Raw-message conversion error (`Error::MessageHandler`). -/
  | msgHandlerErr
  /-- `Error::EventExpired`. -/
  | eventExpired
  /-- `Error::NoRelays`. -/
  | noRelays
  /-- `Error::MsgNotSent`. -/
  | msgNotSent
  /-- `Error::MsgsNotSent`. -/
  | msgsNotSent
  /-- `Error::EventNotPublished(id)`. -/
  | eventNotPublished (id : EventId)
  /-- `Error::EventsNotPublished`. -/
  | eventsNotPublished
  /-- `Error::RelayNotFound`. -/
  | relayNotFound
  /-- A wrapped relay-driver error (`Error::Relay`). -/
  | relayErr
  deriving DecidableEq, Repr

/-- `RelayPoolTask::handle_relay_message`: decode the partial projection,
verify the signature, decode the missing projection, merge, reject expired
events, verify the ID, and only then return the structured event message. -/
def handleRelayMessage : RawRelayMessage → Except Error RelayMessage
  | .event subscriptionId p =>
    if !p.partialOk then .error .partialEventErr
    else if !p.sigOk then .error .eventErr
    else if !p.missingOk then .error .partialEventErr
    else if p.event.expired then .error .eventExpired
    else if !p.idOk then .error .eventErr
    else .ok (.event subscriptionId p.event)
  | .nonEvent parsed =>
    match parsed with
    | some m => .ok (.other m)
    | none => .error .msgHandlerErr

/-- Message on the pool task channel (`RelayPoolMessage`). -/
inductive RelayPoolMessage where
  /-- `ReceivedMsg { relay_url, msg }`. -/
  | receivedMsg (relayUrl : Url) (msg : RawRelayMessage)
  /-- `BatchEvent(ids)`. -/
  | batchEvent (ids : List EventId)
  /-- `RelayStatus { url, status }`. -/
  | relayStatus (url : Url) (status : RelayStatus)
  /-- `Stop`. -/
  | stop
  /-- `Shutdown`. -/
  | shutdown
  deriving DecidableEq, Repr

/-- Pool state mutated by the aggregator task: the seen-event cache, the
`running` flag, and whether the channel receiver has been closed. -/
structure TaskState where
  seen : List EventId
  running : Bool
  channelClosed : Bool
  deriving DecidableEq, Repr

/-- Pool broadcast (`RelayPoolNotification`). -/
inductive Notif where
  /-- `RelayPoolNotification::Message(relay_url, msg)`. -/
  | message (relayUrl : Url) (msg : RelayMessage)
  /-- `RelayPoolNotification::Event(relay_url, event)`. -/
  | event (relayUrl : Url) (event : Event)
  /-- `RelayPoolNotification::RelayStatus { url, status }`. -/
  | relayStatus (url : Url) (status : RelayStatus)
  /-- `RelayPoolNotification::Stop`. -/
  | stop
  /-- `RelayPoolNotification::Shutdown`. -/
  | shutdown
  deriving DecidableEq, Repr

/-- `true` exactly on `Event` broadcasts. -/
def Notif.isEvent : Notif → Bool
  | .event _ _ => true
  | _ => false

/-- One iteration of the aggregator loop body in `RelayPoolTask::run`:
the broadcasts it emits (in order), the state afterwards, and whether the
loop continues to the next channel message. -/
def handleStep (maxSeen : Nat) (st : TaskState) : RelayPoolMessage → List Notif × TaskState × Bool
  | .receivedMsg relayUrl msg =>
    match handleRelayMessage msg with
    | .ok m =>
      match m with
      | .event _ ev =>
        let r := addEvent maxSeen st.seen ev.id
        if r.1 then
          ([.message relayUrl m, .event relayUrl ev], { st with seen := r.2 }, true)
        else
          ([.message relayUrl m], { st with seen := r.2 }, true)
      | .other _ => ([.message relayUrl m], st, true)
    | .error _ => ([], st, true)
  | .batchEvent ids => ([], { st with seen := addEvents maxSeen st.seen ids }, true)
  | .relayStatus url status => ([.relayStatus url status], st, true)
  | .stop => ([.stop], { st with running := false }, false)
  | .shutdown => ([.shutdown], { st with running := false, channelClosed := true }, false)

/-- The aggregator consumption loop over a queue of channel messages:
accumulated broadcasts (in emission order) and the final state. Stops early
when a `Stop`/`Shutdown` message breaks the loop. -/
def runLoop (maxSeen : Nat) (st : TaskState) : List RelayPoolMessage → List Notif × TaskState
  | [] => ([], st)
  | m :: ms =>
    let r := handleStep maxSeen st m
    if r.2.2 then
      let rest := runLoop maxSeen r.2.1 ms
      (r.1 ++ rest.1, rest.2)
    else (r.1, r.2.1)

/-! ## Outbound fan-out (`RelayPool::send_msg` / `batch_msg` / `send_event` /
`batch_event` / `send_msg_to` / `send_event_to`)

A registered relay is modelled by its URL, its role, and the outcome its
driver's send operation would report (`sendOk`); the registry snapshot is a
list. Each operation is modelled as the ordered trace of channel/driver
actions it performs together with its result, so both the result contract
and the ordering between the `BatchEvent` marker and the per-relay sends are
visible. -/

/-- Relay role tag (`RelayRole`). -/
inductive RelayRole where
  | read
  | write
  | readWrite
  deriving DecidableEq, Repr

/-- A registered relay as the fan-out paths observe it: URL, role, and
whether its driver's send succeeds. -/
structure RelayM where
  url : Url
  role : RelayRole
  sendOk : Bool
  deriving DecidableEq, Repr

/-- Outbound client message (`ClientMessage`): an event-carrying payload or
anything else. -/
inductive ClientMessage where
  /-- `ClientMessage::Event(event)`. -/
  | event (event : Event)
  /-- Any non-event client message. -/
  | other (payload : Nat)
  deriving DecidableEq, Repr

/-- An observable action of a fan-out operation, in program order. -/
inductive SendAct where
  /-- `set_events_as_sent(ids)`: enqueue `RelayPoolMessage::BatchEvent(ids)`
  into the aggregator channel. -/
  | enqueueBatch (ids : List EventId)
  /-- Invocation of the per-relay driver send for the relay at `url`. -/
  | relaySend (url : Url)
  deriving DecidableEq, Repr

/-- `true` exactly on per-relay send invocations. -/
def SendAct.isRelaySend : SendAct → Bool
  | .relaySend _ => true
  | _ => false

/-- The shared `sent_to_at_least_one_relay` flag after the per-relay tasks:
initially `false`, set by every role-matching relay whose send succeeds. -/
def anySendOk (relays : List RelayM) (roles : List RelayRole) : Bool :=
  relays.foldl (fun flag r => if roles.contains r.role && r.sendOk then true else flag) false

/-- The per-relay send invocations issued by a fan-out: one per relay whose
role is in the accepted set, in registry order. -/
def fanSends (relays : List RelayM) (roles : List RelayRole) : List SendAct :=
  (relays.filter (fun r => roles.contains r.role)).map (fun r => .relaySend r.url)

/-- The event IDs marked as sent by `batch_msg`: the IDs of the
event-carrying messages of the batch. -/
def batchMsgIds (msgs : List ClientMessage) : List EventId :=
  msgs.filterMap (fun m => match m with | .event ev => some ev.id | .other _ => none)

/-- `RelayPool::send_msg`: `NoRelays` on an empty registry; otherwise mark an
event payload as sent, fan the message out to role-matching relays, and fail
with `MsgNotSent` unless at least one send succeeded. -/
def sendMsg (relays : List RelayM) (msg : ClientMessage) (roles : List RelayRole) :
    List SendAct × Except Error Unit :=
  if relays.isEmpty then ([], .error .noRelays)
  else
    let marks : List SendAct := match msg with
      | .event ev => [.enqueueBatch [ev.id]]
      | .other _ => []
    (marks ++ fanSends relays roles,
      if anySendOk relays roles then .ok () else .error .msgNotSent)

/-- `RelayPool::batch_msg`: `NoRelays` on an empty registry; otherwise mark
the batch's event IDs as sent, fan the batch out, and fail with `MsgNotSent`
unless at least one send succeeded. (The code returns `Error::MsgNotSent`
here, not `Error::MsgsNotSent`.) -/
def batchMsg (relays : List RelayM) (msgs : List ClientMessage) (roles : List RelayRole) :
    List SendAct × Except Error Unit :=
  if relays.isEmpty then ([], .error .noRelays)
  else
    (.enqueueBatch (batchMsgIds msgs) :: fanSends relays roles,
      if anySendOk relays roles then .ok () else .error .msgNotSent)

/-- `RelayPool::send_event`: `NoRelays` on an empty registry; otherwise mark
the event as sent, fan it out, and return its ID on success or
`EventNotPublished(id)` when no relay accepted. -/
def sendEvent (relays : List RelayM) (ev : Event) (roles : List RelayRole) :
    List SendAct × Except Error EventId :=
  if relays.isEmpty then ([], .error .noRelays)
  else
    (.enqueueBatch [ev.id] :: fanSends relays roles,
      if anySendOk relays roles then .ok ev.id else .error (.eventNotPublished ev.id))

/-- `RelayPool::batch_event`: `NoRelays` on an empty registry; otherwise mark
all event IDs as sent, fan the batch out, and fail with `EventsNotPublished`
when no relay accepted. -/
def batchEvent (relays : List RelayM) (events : List Event) (roles : List RelayRole) :
    List SendAct × Except Error Unit :=
  if relays.isEmpty then ([], .error .noRelays)
  else
    (.enqueueBatch (events.map (fun e => e.id)) :: fanSends relays roles,
      if anySendOk relays roles then .ok () else .error .eventsNotPublished)

/-- `RelayPool::relay`: registry lookup by URL. -/
def relayLookup (relays : List RelayM) (url : Url) : Option RelayM :=
  relays.find? (fun r => r.url == url)

/-- `RelayPool::send_msg_to`: look the relay up (`RelayNotFound` on a miss),
mark an event payload as sent, then delegate to the single driver,
propagating its error. -/
def sendMsgTo (relays : List RelayM) (url : Url) (msg : ClientMessage) :
    List SendAct × Except Error Unit :=
  match relayLookup relays url with
  | none => ([], .error .relayNotFound)
  | some r =>
    let marks : List SendAct := match msg with
      | .event ev => [.enqueueBatch [ev.id]]
      | .other _ => []
    (marks ++ [.relaySend r.url], if r.sendOk then .ok () else .error .relayErr)

/-- `RelayPool::send_event_to`: look the relay up (`RelayNotFound` on a
miss), mark the event as sent, then delegate to the single driver. -/
def sendEventTo (relays : List RelayM) (url : Url) (ev : Event) :
    List SendAct × Except Error EventId :=
  match relayLookup relays url with
  | none => ([], .error .relayNotFound)
  | some r =>
    ([.enqueueBatch [ev.id], .relaySend r.url],
      if r.sendOk then .ok ev.id else .error .relayErr)

/-! ## Subscription coordinator (`RelayPool::subscribe` / `connect_relay`) -/

/-- Internal subscription identity (`InternalSubscriptionId`): the reserved
pool-owned identity or some other identity. -/
inductive InternalSubId where
  | pool
  | custom (tag : Nat)
  deriving DecidableEq, Repr

/-- Pool-level subscription state: the stored default filter set. -/
structure PoolState where
  filters : List Filter
  deriving DecidableEq, Repr

/-- An observable action of the subscription paths, in program order. -/
inductive SubAct where
  /-- `pool.update_subscription_filters(filters)`: replace the stored set. -/
  | storeFilters (filters : List Filter)
  /-- `relay.update_subscription_filters(id, filters)`: push a filter set to
  one relay driver under a subscription identity. -/
  | pushFilters (url : Url) (subId : InternalSubId) (filters : List Filter)
  /-- `relay.connect(wait)`. -/
  | relayConnect (url : Url)
  /-- `relay.subscribe_with_internal_id(id, filters, wait)`. -/
  | subscribeRelay (url : Url) (subId : InternalSubId) (filters : List Filter)
  deriving DecidableEq, Repr

/-- `RelayPool::connect_relay`: push the stored filter set to the relay
driver under the reserved pool identity, then initiate the connect. -/
def connectRelay (ps : PoolState) (r : RelayM) : List SubAct :=
  [.pushFilters r.url .pool ps.filters, .relayConnect r.url]

/-- `RelayPool::subscribe`: replace the stored filter set, then broadcast
the subscription to every registered relay under the pool identity. Returns
the new pool state and the action trace. -/
def subscribe (ps : PoolState) (relays : List RelayM) (filters : List Filter) :
    PoolState × List SubAct :=
  ({ ps with filters := filters },
    .storeFilters filters :: relays.map (fun r => .subscribeRelay r.url .pool filters))

/-! ### Fan-out lemmas -/

/-- The flag fold computes `any`: the flag ends `true` iff it started `true`
or some role-matching relay's send succeeded. -/
lemma foldl_flag_eq (roles : List RelayRole) :
    ∀ (rs : List RelayM) (acc : Bool),
      rs.foldl (fun flag r => if roles.contains r.role && r.sendOk then true else flag) acc =
        (acc || rs.any (fun r => roles.contains r.role && r.sendOk)) := by
  intro rs
  induction rs with
  | nil => intro acc; simp
  | cons r rs ih =>
    intro acc
    rw [List.foldl_cons, List.any_cons, ih]
    by_cases h : roles.contains r.role && r.sendOk
    · rw [if_pos h, h]
      simp
    · rw [if_neg h]
      have h' : (roles.contains r.role && r.sendOk) = false := by
        cases hb : (roles.contains r.role && r.sendOk)
        · rfl
        · exact absurd hb h
      rw [h']
      simp [Bool.or_assoc]

/-- The `sent_to_at_least_one_relay` flag is set iff some relay whose role is
accepted reported a successful send. -/
lemma anySendOk_iff (relays : List RelayM) (roles : List RelayRole) :
    anySendOk relays roles = true ↔
      ∃ r ∈ relays, roles.contains r.role = true ∧ r.sendOk = true := by
  unfold anySendOk
  rw [foldl_flag_eq]
  simp [List.any_eq_true, Bool.and_eq_true]

/-- Unfolding equation for `addEventsFuel` on a non-empty batch. -/
lemma addEventsFuel_cons (maxSeen : Nat) (es : List EventId) (i : EventId)
    (ids : List EventId) :
    addEventsFuel maxSeen es (i :: ids) =
      if es.contains i then addEventsFuel maxSeen es ids
      else match popEvictFuel maxSeen (es.length + 1) es with
        | some es' => addEventsFuel maxSeen (es' ++ [i]) ids
        | none => none := rfl

/-- The cache component of a fueled admission. -/
lemma addEventFuel_map_snd (maxSeen fuel : Nat) (es : List EventId) (i : EventId) :
    (addEventFuel maxSeen fuel es i).map Prod.snd =
      if es.contains i then some es
      else match popEvictFuel maxSeen fuel es with
        | some es' => some (es' ++ [i])
        | none => none := by
  rw [addEventFuel]
  by_cases hc : es.contains i
  · rw [if_pos hc, if_pos hc]
    rfl
  · rw [if_neg hc, if_neg hc]
    cases popEvictFuel maxSeen fuel es <;> rfl

/-! ## Claim theorems -/

/-- C2: `add_event` returns `true` iff the ID is not currently cached; a
fresh ID is appended at the tail after head elements are evicted (exactly
`length + 1 - maxSeen` of them, zero below capacity); and after `add_event`,
`add_events` and `clear_already_seen_events` the cache is duplicate-free and
(for capacity at least 1) no longer than the capacity. -/
theorem seen_cache_contract (maxSeen : Nat) (es : List EventId) (eventId : EventId) :
    ((addEvent maxSeen es eventId).1 = true ↔ eventId ∉ es) ∧
    (1 ≤ maxSeen → eventId ∉ es →
      (addEvent maxSeen es eventId).2 = es.drop (es.length + 1 - maxSeen) ++ [eventId]) ∧
    (1 ≤ maxSeen → es.Nodup → es.length ≤ maxSeen →
      (addEvent maxSeen es eventId).2.Nodup ∧ (addEvent maxSeen es eventId).2.length ≤ maxSeen) ∧
    (∀ ids, 1 ≤ maxSeen → es.Nodup → es.length ≤ maxSeen →
      (addEvents maxSeen es ids).Nodup ∧ (addEvents maxSeen es ids).length ≤ maxSeen) ∧
    ((clearAlreadySeenEvents es).Nodup ∧ (clearAlreadySeenEvents es).length ≤ maxSeen) := by
  refine ⟨?_, ?_, ?_, ?_, ?_⟩
  · unfold addEvent
    by_cases hc : eventId ∈ es <;> simp [hc]
  · intro _ hmem
    unfold addEvent
    rw [if_neg (by simpa using hmem), popEvict_eq_drop]
  · intro h1 hnd hlen
    exact addEvent_invariant maxSeen h1 es eventId hnd hlen
  · intro ids h1 hnd hlen
    exact addEvents_invariant maxSeen h1 ids es hnd hlen
  · exact ⟨List.nodup_nil, by simp [clearAlreadySeenEvents]⟩

/-- Witness for C2 at capacity 2, cache `[1]`, fresh ID `3`, batch `[4, 4]`. -/
theorem seen_cache_contract_witness :
    (addEvent 2 [1] 3).2 = [1, 3] ∧
      (addEvents 2 [1] [4, 4]).Nodup ∧ (addEvents 2 [1] [4, 4]).length ≤ 2 := by
  have h := seen_cache_contract 2 [1] 3
  refine ⟨?_, h.2.2.2.1 [4, 4] (by decide) (by decide) (by decide)⟩
  have hb := h.2.1 (by decide) (by decide)
  simpa using hb

/-- C8: `add_events` produces exactly the final cache state of folding
`add_event` over the batch in order, discarding the verdicts — both for the
total forms and for the faithful fueled forms (where both abort together if
the eviction loop spins). -/
theorem add_events_refines_add_event (maxSeen : Nat) (es ids : List EventId) :
    addEvents maxSeen es ids = ids.foldl (fun s i => (addEvent maxSeen s i).2) es ∧
    addEventsFuel maxSeen es ids =
      ids.foldlM (fun s i => (addEventFuel maxSeen (s.length + 1) s i).map Prod.snd) es := by
  refine ⟨addEvents_eq_foldl maxSeen es ids, ?_⟩
  induction ids generalizing es with
  | nil => rfl
  | cons i ids ih =>
    rw [List.foldlM_cons, addEventsFuel_cons, addEventFuel_map_snd]
    by_cases hc : es.contains i
    · rw [if_pos hc, if_pos hc]
      simpa using ih es
    · rw [if_neg hc, if_neg hc]
      cases hp : popEvictFuel maxSeen (es.length + 1) es with
      | some es' => simpa using ih (es' ++ [i])
      | none => rfl

/-- C7: on `Stop` the aggregator clears the running flag, emits exactly a
`Stop` broadcast, leaves the receiver open and the cache untouched, and
breaks out of the loop; on `Shutdown` it clears the flag, closes the
receiver, emits exactly a `Shutdown` broadcast, and exits. -/
theorem stop_shutdown_contract (maxSeen : Nat) (st : TaskState) :
    ((handleStep maxSeen st .stop).1 = [.stop] ∧
      (handleStep maxSeen st .stop).2.1.running = false ∧
      (handleStep maxSeen st .stop).2.1.channelClosed = st.channelClosed ∧
      (handleStep maxSeen st .stop).2.1.seen = st.seen ∧
      (handleStep maxSeen st .stop).2.2 = false) ∧
    ((handleStep maxSeen st .shutdown).1 = [.shutdown] ∧
      (handleStep maxSeen st .shutdown).2.1.running = false ∧
      (handleStep maxSeen st .shutdown).2.1.channelClosed = true ∧
      (handleStep maxSeen st .shutdown).2.1.seen = st.seen ∧
      (handleStep maxSeen st .shutdown).2.2 = false) := by
  refine ⟨⟨rfl, rfl, rfl, rfl, rfl⟩, rfl, rfl, rfl, rfl, rfl⟩

/-- C9: `connect_relay` pushes the pool's stored filter set to the relay
under the reserved pool identity and only then connects; `subscribe` stores
the new filter set before broadcasting it; hence a relay connected after
`subscribe F` is pushed `F` under the pool identity before its connect. -/
theorem filter_replay_contract (ps : PoolState) (r : RelayM) (relays : List RelayM)
    (filters : List Filter) :
    (connectRelay ps r = [.pushFilters r.url .pool ps.filters, .relayConnect r.url]) ∧
    ((subscribe ps relays filters).1.filters = filters ∧
      (subscribe ps relays filters).2 =
        .storeFilters filters :: relays.map (fun rl => .subscribeRelay rl.url .pool filters)) ∧
    (connectRelay (subscribe ps relays filters).1 r =
      [.pushFilters r.url .pool filters, .relayConnect r.url]) := by
  exact ⟨rfl, ⟨rfl, rfl⟩, rfl⟩

/-- C10: with capacity at least 1 the eviction loops of `add_event` and
`add_events` terminate — fuel `length + 1` (at most `length` pops) always
suffices — while at capacity 0 the loop admits no bound: on an empty deque
it makes no progress under any amount of fuel. -/
theorem add_event_terminates (maxSeen : Nat) :
    (1 ≤ maxSeen →
      (∀ es eventId, addEventFuel maxSeen (es.length + 1) es eventId =
        some (addEvent maxSeen es eventId)) ∧
      (∀ es ids, addEventsFuel maxSeen es ids ≠ none)) ∧
    (∀ fuel, popEvictFuel 0 fuel [] = none) := by
  refine ⟨fun h1 => ⟨fun es eventId => addEventFuel_eq maxSeen h1 es eventId, ?_⟩,
    popEvictFuel_zero_nil⟩
  intro es ids
  rw [addEventsFuel_eq maxSeen h1 ids es]
  exact Option.some_ne_none _

/-- Witness for C10 at capacity 1, a full cache `[7]`, and batch `[8, 9]`. -/
theorem add_event_terminates_witness :
    addEventFuel 1 ([7].length + 1) [7] 8 = some (addEvent 1 [7] 8) ∧
      addEventsFuel 1 [7] [8, 9] ≠ none := by
  have h := (add_event_terminates 1).1 (by decide)
  exact ⟨h.1 [7] 8, h.2 [7] [8, 9]⟩

/-- C6: at the concrete failing input — one registered `Write` relay whose
send fails, batch of one non-event message, roles `[Write]` — `batch_msg`
returns `Error::MsgNotSent`, the singular form, not the `Error::MsgsNotSent`
the claim names (that variant is declared in the error enum but never
constructed anywhere in the pool). -/
theorem batch_msg_singular_error_eval :
    (batchMsg [⟨0, .write, false⟩] [.other 0] [.write]).2 = .error .msgNotSent ∧
      (batchMsg [⟨0, .write, false⟩] [.other 0] [.write]).2 ≠ .error .msgsNotSent := by
  constructor
  · rfl
  · show Except.error Error.msgNotSent ≠ Except.error Error.msgsNotSent
    simp

/-- C1: if any decode step or any of the three checks (signature on the
partial projection, non-expiration, re-derived ID) fails, then
`handle_relay_message` returns an error, and on an erroring frame the
aggregator emits no broadcast at all (in particular no `Message` and no
`Event`), leaves the seen-event cache (and all state) unchanged, and the
loop continues with the remaining channel messages. -/
theorem verification_failure_drops_frame
    (maxSeen : Nat) (st : TaskState) (relayUrl : Url) (msg : RawRelayMessage)
    (subscriptionId : Nat) (p : RawEventPayload) (e : Error)
    (ms : List RelayPoolMessage) :
    ((p.partialOk = false ∨ p.sigOk = false ∨ p.missingOk = false ∨
        p.event.expired = true ∨ p.idOk = false) →
      ∃ err, handleRelayMessage (.event subscriptionId p) = .error err) ∧
    (handleRelayMessage msg = .error e →
      handleStep maxSeen st (.receivedMsg relayUrl msg) = ([], st, true) ∧
      runLoop maxSeen st (.receivedMsg relayUrl msg :: ms) = runLoop maxSeen st ms) := by
  constructor
  · intro hfail
    obtain ⟨po, so, mo, io, ev⟩ := p
    obtain ⟨eid, body, ex⟩ := ev
    simp only at hfail
    cases po <;> cases so <;> cases mo <;> cases ex <;> cases io <;>
      simp_all [handleRelayMessage]
  · intro herr
    have hstep : handleStep maxSeen st (.receivedMsg relayUrl msg) = ([], st, true) := by
      simp only [handleStep, herr]
    refine ⟨hstep, ?_⟩
    rw [runLoop]
    simp only [hstep]
    rfl

/-- Witness for C1: a frame whose signature check fails is rejected by
`handle_relay_message`, produces no broadcast, and leaves the state alone. -/
theorem verification_failure_drops_frame_witness :
    (∃ err, handleRelayMessage
        (.event 0 ⟨true, false, true, true, ⟨5, 0, false⟩⟩) = .error err) ∧
      handleStep 3 ⟨[1], true, false⟩
          (.receivedMsg 9 (.event 0 ⟨true, false, true, true, ⟨5, 0, false⟩⟩)) =
        ([], ⟨[1], true, false⟩, true) := by
  have h := verification_failure_drops_frame 3 ⟨[1], true, false⟩ 9
    (.event 0 ⟨true, false, true, true, ⟨5, 0, false⟩⟩) 0
    ⟨true, false, true, true, ⟨5, 0, false⟩⟩ .eventErr []
  exact ⟨h.1 (by decide), (h.2 rfl).1⟩

/-- C3: `send_msg` and `send_event` return `NoRelays` on an empty registry;
on a non-empty registry they succeed iff at least one per-relay send (over
the role-matching relays) succeeded, `send_event` returning the event's ID
on success; and when no relay accepted, `send_msg` returns `MsgNotSent` and
`send_event` returns `EventNotPublished` carrying the event's ID. -/
theorem fanout_at_least_one
    (relays : List RelayM) (roles : List RelayRole) (msg : ClientMessage) (ev : Event) :
    (relays = [] →
      (sendMsg relays msg roles).2 = .error .noRelays ∧
        (sendEvent relays ev roles).2 = .error .noRelays) ∧
    (relays ≠ [] →
      ((sendMsg relays msg roles).2 = .ok () ↔
        ∃ r ∈ relays, roles.contains r.role = true ∧ r.sendOk = true) ∧
      ((sendEvent relays ev roles).2 = .ok ev.id ↔
        ∃ r ∈ relays, roles.contains r.role = true ∧ r.sendOk = true) ∧
      (¬ (∃ r ∈ relays, roles.contains r.role = true ∧ r.sendOk = true) →
        (sendMsg relays msg roles).2 = .error .msgNotSent ∧
          (sendEvent relays ev roles).2 = .error (.eventNotPublished ev.id))) := by
  constructor
  · intro hnil
    subst hnil
    exact ⟨rfl, rfl⟩
  · intro hne
    have hnotempty : relays.isEmpty = false := by
      cases relays with
      | nil => exact absurd rfl hne
      | cons r rs => rfl
    by_cases hok : anySendOk relays roles = true
    · have hex := (anySendOk_iff relays roles).mp hok
      have hex' : ∃ r ∈ relays, r.role ∈ roles ∧ r.sendOk = true := by
        simpa using hex
      refine ⟨?_, ?_, fun hc => absurd hex hc⟩
      · simp [sendMsg, hnotempty, hok, hex']
      · simp [sendEvent, hnotempty, hok, hex']
    · have hnex : ¬ ∃ r ∈ relays, roles.contains r.role = true ∧ r.sendOk = true :=
        fun hx => hok ((anySendOk_iff relays roles).mpr hx)
      have hnex' : ∀ x ∈ relays, x.role ∈ roles → x.sendOk = false := by
        intro x hx hrole
        cases hb : x.sendOk
        · rfl
        · exact absurd ⟨x, hx, by simpa using hrole, hb⟩ hnex
      have hokf : anySendOk relays roles = false := by
        cases hb : anySendOk relays roles
        · rfl
        · exact absurd hb hok
      refine ⟨?_, ?_, fun _ => ?_⟩
      · simp [sendMsg, hnotempty, hokf]
        exact hnex'
      · simp [sendEvent, hnotempty, hokf]
        exact hnex'
      · exact ⟨by simp [sendMsg, hnotempty, hokf], by simp [sendEvent, hnotempty, hokf]⟩

/-- Witness for C3: empty registry gives `NoRelays`; a two-relay registry in
which only the second (role-matching) relay accepts gives success, with
`send_event` returning the event's ID. -/
theorem fanout_at_least_one_witness :
    (sendMsg [] (.other 0) [.write]).2 = .error .noRelays ∧
      (sendEvent [⟨1, .read, false⟩, ⟨2, .write, true⟩] ⟨5, 0, false⟩ [.write]).2 =
        .ok (5 : EventId) := by
  have h0 := fanout_at_least_one [] [.write] (.other 0) ⟨5, 0, false⟩
  have h1 := fanout_at_least_one [⟨1, .read, false⟩, ⟨2, .write, true⟩] [.write]
    (.other 0) ⟨5, 0, false⟩
  refine ⟨(h0.1 rfl).1, ?_⟩
  exact (h1.2 (by decide)).2.1.mpr ⟨⟨2, .write, true⟩, by decide, by decide, rfl⟩

/-- C4: on a verified frame the `Message` broadcast comes first and everything
after it is an `Event` broadcast; the `Event` broadcast is emitted iff the
event's ID was admitted first-time into the seen cache; hence when two relays
deliver the same (verified) event ID, exactly one `Event` broadcast results
and it carries the URL of the frame processed first. -/
theorem first_seen_broadcast
    (maxSeen : Nat) (st : TaskState) (u u2 : Url) (msg msg2 : RawRelayMessage)
    (subId subId2 : Nat) (ev ev2 : Event) (m : RelayMessage) :
    (handleRelayMessage msg = .ok m →
      ∃ rest, (handleStep maxSeen st (.receivedMsg u msg)).1 = .message u m :: rest ∧
        ∀ n ∈ rest, n.isEvent = true) ∧
    (handleRelayMessage msg = .ok (.event subId ev) →
      (Notif.event u ev ∈ (handleStep maxSeen st (.receivedMsg u msg)).1 ↔
        (addEvent maxSeen st.seen ev.id).1 = true)) ∧
    (1 ≤ maxSeen →
      handleRelayMessage msg = .ok (.event subId ev) →
      handleRelayMessage msg2 = .ok (.event subId2 ev2) →
      ev2.id = ev.id → ev.id ∉ st.seen →
      (runLoop maxSeen st [.receivedMsg u msg, .receivedMsg u2 msg2]).1.filter
        Notif.isEvent = [.event u ev]) := by
  refine ⟨?_, ?_, ?_⟩
  · intro hok
    cases m with
    | event subscriptionId e =>
      by_cases hadd : (addEvent maxSeen st.seen e.id).1 = true
      · refine ⟨[.event u e], ?_, ?_⟩
        · simp [handleStep, hok, hadd]
        · intro n hn
          rw [List.mem_singleton] at hn
          rw [hn]
          rfl
      · have haddf : (addEvent maxSeen st.seen e.id).1 = false := by
          cases hb : (addEvent maxSeen st.seen e.id).1
          · rfl
          · exact absurd hb hadd
        refine ⟨[], ?_, by intro n hn; cases hn⟩
        simp [handleStep, hok, haddf]
    | other om =>
      refine ⟨[], ?_, by intro n hn; cases hn⟩
      simp [handleStep, hok]
  · intro hok
    by_cases hadd : (addEvent maxSeen st.seen ev.id).1 = true
    · simp [handleStep, hok, hadd]
    · have haddf : (addEvent maxSeen st.seen ev.id).1 = false := by
        cases hb : (addEvent maxSeen st.seen ev.id).1
        · rfl
        · exact absurd hb hadd
      simp [handleStep, hok, haddf]
  · intro hcap hok1 hok2 hid hmem
    have hcp : ¬ (st.seen.contains ev.id = true) := by simpa using hmem
    have hadd1 : addEvent maxSeen st.seen ev.id =
        (true, popEvict maxSeen st.seen ++ [ev.id]) := by
      unfold addEvent
      rw [if_neg hcp]
    have hstep1 : handleStep maxSeen st (.receivedMsg u msg) =
        ([.message u (.event subId ev), .event u ev],
          { st with seen := popEvict maxSeen st.seen ++ [ev.id] }, true) := by
      simp [handleStep, hok1, hadd1]
    have hmem2 : ev2.id ∈ popEvict maxSeen st.seen ++ [ev.id] := by
      rw [hid]
      exact List.mem_append_right _ (List.mem_singleton.mpr rfl)
    have hadd2 : addEvent maxSeen (popEvict maxSeen st.seen ++ [ev.id]) ev2.id =
        (false, popEvict maxSeen st.seen ++ [ev.id]) := by
      unfold addEvent
      rw [if_pos (by simpa using hmem2)]
    have hstep2 : handleStep maxSeen { st with seen := popEvict maxSeen st.seen ++ [ev.id] }
        (.receivedMsg u2 msg2) =
        ([.message u2 (.event subId2 ev2)],
          { st with seen := popEvict maxSeen st.seen ++ [ev.id] }, true) := by
      simp [handleStep, hok2, hadd2]
    simp only [runLoop, hstep1, hstep2]
    simp [Notif.isEvent]

/-- Witness for C4: the same verified event (ID 7) delivered by relays 1 and
2 in that order yields exactly one `Event` broadcast, carrying relay 1. -/
theorem first_seen_broadcast_witness :
    (∃ rest, (handleStep 2 ⟨[], true, false⟩ (.receivedMsg 1
          (.event 0 ⟨true, true, true, true, ⟨7, 0, false⟩⟩))).1 =
        .message 1 (.event 0 ⟨7, 0, false⟩) :: rest ∧ ∀ n ∈ rest, n.isEvent = true) ∧
    (Notif.event 1 ⟨7, 0, false⟩ ∈ (handleStep 2 ⟨[], true, false⟩ (.receivedMsg 1
        (.event 0 ⟨true, true, true, true, ⟨7, 0, false⟩⟩))).1 ↔
      (addEvent 2 [] 7).1 = true) ∧
    (runLoop 2 ⟨[], true, false⟩
        [.receivedMsg 1 (.event 0 ⟨true, true, true, true, ⟨7, 0, false⟩⟩),
          .receivedMsg 2 (.event 0 ⟨true, true, true, true, ⟨7, 0, false⟩⟩)]).1.filter
      Notif.isEvent = [.event 1 ⟨7, 0, false⟩] := by
  have h := first_seen_broadcast 2 ⟨[], true, false⟩ 1 2
    (.event 0 ⟨true, true, true, true, ⟨7, 0, false⟩⟩)
    (.event 0 ⟨true, true, true, true, ⟨7, 0, false⟩⟩) 0 0 ⟨7, 0, false⟩ ⟨7, 0, false⟩
    (.event 0 ⟨7, 0, false⟩)
  exact ⟨h.1 rfl, h.2.1 rfl, h.2.2 (by decide) rfl rfl rfl (by decide)⟩

/-- C5: every event-carrying publishing operation enqueues the payload's
event ID(s) as a `BatchEvent` marker into the aggregator channel strictly
before any per-relay send is invoked: the marker heads the action trace and
every later action is a per-relay send. -/
theorem marker_precedes_sends
    (relays : List RelayM) (roles : List RelayRole) (ev : Event)
    (msgs : List ClientMessage) (events : List Event) (url : Url) (r : RelayM) :
    (relays ≠ [] →
      ((sendMsg relays (.event ev) roles).1 =
          .enqueueBatch [ev.id] :: fanSends relays roles) ∧
      ((batchMsg relays msgs roles).1 =
          .enqueueBatch (batchMsgIds msgs) :: fanSends relays roles) ∧
      ((sendEvent relays ev roles).1 =
          .enqueueBatch [ev.id] :: fanSends relays roles) ∧
      ((batchEvent relays events roles).1 =
          .enqueueBatch (events.map (fun e => e.id)) :: fanSends relays roles) ∧
      (∀ a ∈ fanSends relays roles, a.isRelaySend = true)) ∧
    (relayLookup relays url = some r →
      (sendMsgTo relays url (.event ev)).1 = [.enqueueBatch [ev.id], .relaySend r.url] ∧
      (sendEventTo relays url ev).1 = [.enqueueBatch [ev.id], .relaySend r.url]) := by
  constructor
  · intro hne
    have hnotempty : relays.isEmpty = false := by
      cases relays with
      | nil => exact absurd rfl hne
      | cons r0 rs => rfl
    refine ⟨?_, ?_, ?_, ?_, ?_⟩
    · simp [sendMsg, hnotempty]
    · simp [batchMsg, hnotempty]
    · simp [sendEvent, hnotempty]
    · simp [batchEvent, hnotempty]
    · intro a ha
      simp only [fanSends, List.mem_map] at ha
      obtain ⟨x, _, rfl⟩ := ha
      rfl
  · intro hlook
    constructor
    · simp [sendMsgTo, hlook]
    · simp [sendEventTo, hlook]

/-- Witness for C5: one registered accepting `Write` relay; `send_event` and
`send_event_to` both put the `BatchEvent` marker ahead of the only send. -/
theorem marker_precedes_sends_witness :
    (sendEvent [⟨1, .write, true⟩] ⟨5, 0, false⟩ [.write]).1 =
        [.enqueueBatch [5], .relaySend 1] ∧
      (sendEventTo [⟨1, .write, true⟩] 1 ⟨5, 0, false⟩).1 =
        [.enqueueBatch [5], .relaySend 1] := by
  have h := marker_precedes_sends [⟨1, .write, true⟩] [.write] ⟨5, 0, false⟩ [] []
    1 ⟨1, .write, true⟩
  refine ⟨?_, (h.2 rfl).2⟩
  have h1 := (h.1 (by decide)).2.2.1
  rw [h1]
  rfl
